import Mathlib

/-!
Verification development for the node-controller subsystem of a Lightning
network daemon.  The Rust sources are shallowly embedded: pure fragments
become Lean functions, loops become folds or structural recursion, stateful
code becomes explicit state passing, assertions and fallible calls return
Except values.  Machine integers are modelled as Nat (no arithmetic in the
embedded fragments overflows).  Parts of the repository whose implementation
file is absent (the SQL-backed store and the macaroon verifier) are modelled
from the specification text and are marked as such in their doc comments.
-/

namespace Knd

/-- Block hashes, abstracted to naturals. -/
abbrev BlockHash := Nat

/-- A funding outpoint: transaction id and output index. -/
abbrev OutPoint := Nat × Nat

/-- Compressed public keys, abstracted to naturals. -/
abbrev PublicKey := Nat

/-- A channel monitor as the controller sees it: an engine-owned value
carrying its funding outpoint and its latest update id (the two observations
the controller code makes on it, via get_funding_txo and
get_latest_update_id). -/
structure ChannelMonitor where
  monitorId : Nat
  fundingTxo : OutPoint
  latestUpdateId : Nat
deriving DecidableEq, Repr

/-- The two shapes of chain listener pushed into the listener vector of
Controller::sync_to_chain_tip: the channel manager, or the tuple of a
channel monitor with broadcaster, fee estimator and logger. -/
inductive ChainListener where
  | channelManager
  | monitorBundle (monitor : ChannelMonitor)
deriving DecidableEq, Repr

/-- First loop of Controller::sync_to_chain_tip: for each loaded
(blockhash, channel_monitor) pair, push (blockhash, bundle, funding
outpoint) onto chain_listener_channel_monitors. -/
def chainListenerChannelMonitors (channelmonitors : List (BlockHash × ChannelMonitor)) :
    List (BlockHash × ChannelMonitor × OutPoint) :=
  channelmonitors.foldl (fun acc p => acc ++ [(p.1, p.2, p.2.fundingTxo)]) []

/-- Second loop of Controller::sync_to_chain_tip: chain_listeners starts as
the singleton holding the channel manager paired with its persisted best
block hash, then one entry per monitor is pushed. -/
def chainListeners (channelManagerBlockhash : BlockHash)
    (channelmonitors : List (BlockHash × ChannelMonitor)) :
    List (BlockHash × ChainListener) :=
  (chainListenerChannelMonitors channelmonitors).foldl
    (fun acc info => acc ++ [(info.1, ChainListener.monitorBundle info.2.1)])
    [(channelManagerBlockhash, ChainListener.channelManager)]

/-- Return statuses of ChainMonitor::watch_channel. -/
inductive ChannelMonitorUpdateStatus where
  | completed
  | inProgress
  | permanentFailure
deriving DecidableEq, Repr

/-- Third loop of Controller::sync_to_chain_tip: after synchronize_listeners
returns, each monitor is handed to the chain monitor via
watch_channel(funding_outpoint, channel_monitor) and the return value is
asserted to be Completed; a failing assertion aborts the process, modelled
as an error result.  The ok result records the watch_channel calls made. -/
def registerMonitors (watchChannel : OutPoint → ChannelMonitor → ChannelMonitorUpdateStatus) :
    List (BlockHash × ChannelMonitor × OutPoint) →
      Except Unit (List (OutPoint × ChannelMonitor))
  | [] => Except.ok []
  | (_, channelMonitor, fundingOutpoint) :: rest =>
    if watchChannel fundingOutpoint channelMonitor = ChannelMonitorUpdateStatus.completed then
      (registerMonitors watchChannel rest).map
        (fun calls => (fundingOutpoint, channelMonitor) :: calls)
    else
      Except.error ()

theorem foldl_push_eq_append_map {α β : Type} (f : α → β) (l : List α) (acc : List β) :
    l.foldl (fun acc x => acc ++ [f x]) acc = acc ++ l.map f := by
  induction l generalizing acc with
  | nil => simp
  | cons a t ih => simp [ih]

theorem chainListenerChannelMonitors_eq (ms : List (BlockHash × ChannelMonitor)) :
    chainListenerChannelMonitors ms = ms.map (fun p => (p.1, p.2, p.2.fundingTxo)) := by
  simpa [chainListenerChannelMonitors] using
    foldl_push_eq_append_map (fun p : BlockHash × ChannelMonitor => (p.1, p.2, p.2.fundingTxo)) ms []

/-- C3: the chain-listener vector is the channel manager paired with its
persisted best-block hash, followed by one entry per loaded channel monitor,
each paired with the block hash that monitor was fetched with, in order. -/
theorem chain_listener_vector_order (cmBlockhash : BlockHash)
    (ms : List (BlockHash × ChannelMonitor)) :
    chainListeners cmBlockhash ms =
      (cmBlockhash, ChainListener.channelManager) ::
        ms.map (fun p => (p.1, ChainListener.monitorBundle p.2)) := by
  rw [chainListeners, chainListenerChannelMonitors_eq]
  rw [foldl_push_eq_append_map
    (fun info : BlockHash × ChannelMonitor × OutPoint =>
      (info.1, ChainListener.monitorBundle info.2.1))]
  simp [List.map_map, Function.comp]

theorem registerMonitors_error_iff
    (watch : OutPoint → ChannelMonitor → ChannelMonitorUpdateStatus)
    (l : List (BlockHash × ChannelMonitor × OutPoint)) :
    registerMonitors watch l = Except.error () ↔
      ∃ e ∈ l, watch e.2.2 e.2.1 ≠ ChannelMonitorUpdateStatus.completed := by
  induction l with
  | nil => simp [registerMonitors]
  | cons e rest ih =>
    obtain ⟨bh, cm, op⟩ := e
    by_cases h : watch op cm = ChannelMonitorUpdateStatus.completed
    · simp only [registerMonitors, h, if_pos rfl]
      constructor
      · intro hmap
        rcases hrest : registerMonitors watch rest with err | calls
        · exact ⟨_, List.mem_cons_of_mem _ (ih.mp hrest).choose_spec.1, by
            have := (ih.mp hrest).choose_spec.2
            exact this⟩
        · rw [hrest] at hmap
          simp [Except.map] at hmap
      · rintro ⟨f, hf, hne⟩
        rcases List.mem_cons.mp hf with rfl | hmem
        · exact absurd h hne
        · rw [ih.mpr ⟨f, hmem, hne⟩]
          rfl
    · simp [registerMonitors, h]

theorem registerMonitors_ok
    (watch : OutPoint → ChannelMonitor → ChannelMonitorUpdateStatus)
    (l : List (BlockHash × ChannelMonitor × OutPoint))
    (h : ∀ e ∈ l, watch e.2.2 e.2.1 = ChannelMonitorUpdateStatus.completed) :
    registerMonitors watch l = Except.ok (l.map (fun e => (e.2.2, e.2.1))) := by
  induction l with
  | nil => simp [registerMonitors]
  | cons e rest ih =>
    obtain ⟨bh, cm, op⟩ := e
    have he := h _ (List.mem_cons_self _ _)
    simp only at he
    simp only [registerMonitors, he, if_pos rfl,
      ih (fun f hf => h f (List.mem_cons_of_mem _ hf))]
    rfl

/-- C2: after synchronize_listeners, every channel monitor loaded from the
store is registered with the chain monitor through
watch_channel(outpoint, monitor); when every such call returns Completed the
registration loop performs exactly one call per loaded monitor with its
funding outpoint, and any call returning a value other than Completed makes
the assertion fail (the process aborts), and conversely. -/
theorem watch_channel_registration
    (watch : OutPoint → ChannelMonitor → ChannelMonitorUpdateStatus)
    (ms : List (BlockHash × ChannelMonitor)) :
    ((∀ p ∈ ms, watch p.2.fundingTxo p.2 = ChannelMonitorUpdateStatus.completed) →
      registerMonitors watch (chainListenerChannelMonitors ms) =
        Except.ok (ms.map (fun p => (p.2.fundingTxo, p.2)))) ∧
    (registerMonitors watch (chainListenerChannelMonitors ms) = Except.error () ↔
      ∃ p ∈ ms, watch p.2.fundingTxo p.2 ≠ ChannelMonitorUpdateStatus.completed) := by
  rw [chainListenerChannelMonitors_eq]
  constructor
  · intro h
    rw [registerMonitors_ok]
    · simp
    · intro e he
      simp only [List.mem_map] at he
      obtain ⟨p, hp, rfl⟩ := he
      exact h p hp
  · rw [registerMonitors_error_iff]
    constructor
    · rintro ⟨e, he, hne⟩
      simp only [List.mem_map] at he
      obtain ⟨p, hp, rfl⟩ := he
      exact ⟨p, hp, hne⟩
    · rintro ⟨p, hp, hne⟩
      exact ⟨(p.1, p.2, p.2.fundingTxo), List.mem_map.mpr ⟨p, hp, rfl⟩, hne⟩

/-- Witness for the watch_channel registration theorem at a concrete input:
two monitors, a watch function returning Completed everywhere. -/
theorem watch_channel_registration_witness :
    registerMonitors (fun _ _ => ChannelMonitorUpdateStatus.completed)
        (chainListenerChannelMonitors
          [(5, ⟨0, (7, 1), 3⟩), (9, ⟨1, (8, 0), 4⟩)]) =
      Except.ok [((7, 1), ⟨0, (7, 1), 3⟩), ((8, 0), ⟨1, (8, 0), 4⟩)] := by
  have h := (watch_channel_registration (fun _ _ => ChannelMonitorUpdateStatus.completed)
    [(5, ⟨0, (7, 1), 3⟩), (9, ⟨1, (8, 0), 4⟩)]).1 (by intro p _; rfl)
  simpa using h

/-- Modelled from the spec: the channel-monitor persistence schema of the
SQL store (ldk_database.rs is not under src, only its tests are).  Per
section 4.B the store keeps per outpoint a full snapshot row written by
persist_new_channel and append-only update rows written by
update_persisted_channel. -/
structure MonitorStore where
  snapshots : List (OutPoint × ChannelMonitor)
  updateRows : List (OutPoint × Nat)
deriving DecidableEq, Repr

/-- Modelled from the spec: persist_new_channel(outpoint, monitor_blob,
update_id) writes the full snapshot row. -/
def persistNewChannel (s : MonitorStore) (o : OutPoint) (m : ChannelMonitor) : MonitorStore :=
  { s with snapshots := s.snapshots ++ [(o, m)] }

/-- Modelled from the spec: update_persisted_channel(outpoint, update_id,
update_blob) appends an update row. -/
def updatePersistedChannel (s : MonitorStore) (o : OutPoint) (updateId : Nat) : MonitorStore :=
  { s with updateRows := s.updateRows ++ [(o, updateId)] }

/-- Applying an incremental update carrying update id u to a monitor moves
its latest update id to u. -/
def applyUpdate (m : ChannelMonitor) (u : Nat) : ChannelMonitor :=
  { m with latestUpdateId := u }

/-- Modelled from the spec: the update rows of one outpoint that are newer
than the snapshot, taken in update_id order. -/
def pendingUpdateIds (s : MonitorStore) (o : OutPoint) (snapId : Nat) : List Nat :=
  List.insertionSort (· ≤ ·)
    ((s.updateRows.filter (fun r => decide (r.1 = o ∧ snapId < r.2))).map Prod.snd)

/-- Modelled from the spec: fetch_channel_monitors rehydrates the monitor of
an outpoint by applying all snapshots plus updates in update_id order. -/
def fetchChannelMonitor (s : MonitorStore) (o : OutPoint) : Option ChannelMonitor :=
  (s.snapshots.find? (fun e => decide (e.1 = o))).map
    (fun e => (pendingUpdateIds s o e.2.latestUpdateId).foldl applyUpdate e.2)

/-- All update ids persisted for one outpoint, snapshot first then the
append-only update rows in write order. -/
def persistedUpdateIds (s : MonitorStore) (o : OutPoint) : List Nat :=
  (s.snapshots.filter (fun e => decide (e.1 = o))).map (fun e => e.2.latestUpdateId) ++
    (s.updateRows.filter (fun r => decide (r.1 = o))).map Prod.snd

/-- The store produced by a sequence of channel activities generating
monitor updates with ids 0..n on one channel: the initial snapshot at update
id 0 written when the channel is created, then one persisted update per
activity with ids 1, 2, ..., n. -/
def scenarioStore (o : OutPoint) (mid : Nat) (n : Nat) : MonitorStore :=
  (List.range' 1 n).foldl (fun s i => updatePersistedChannel s o i)
    (persistNewChannel ⟨[], []⟩ o ⟨mid, o, 0⟩)

theorem scenarioStore_eq (o : OutPoint) (mid n : Nat) :
    scenarioStore o mid n =
      ⟨[(o, ⟨mid, o, 0⟩)], (List.range' 1 n).map (fun i => (o, i))⟩ := by
  have h : ∀ (l : List Nat) (s : MonitorStore),
      l.foldl (fun s i => updatePersistedChannel s o i) s =
        ⟨s.snapshots, s.updateRows ++ l.map (fun i => (o, i))⟩ := by
    intro l
    induction l with
    | nil => intro s; simp
    | cons a t ih =>
      intro s
      rw [List.foldl_cons, ih]
      simp [updatePersistedChannel]
  simp [scenarioStore, h, persistNewChannel]

theorem foldl_applyUpdate_latest (l : List Nat) (m : ChannelMonitor) :
    (l.foldl applyUpdate m).latestUpdateId = l.foldl (fun _ u => u) m.latestUpdateId := by
  induction l generalizing m with
  | nil => rfl
  | cons a t ih =>
    rw [List.foldl_cons, ih]
    rfl

theorem foldl_keep_last_range (n : Nat) :
    ∀ (s x : Nat), (List.range' s (n + 1)).foldl (fun _ u => u) x = s + n := by
  induction n with
  | zero => intro s x; simp [List.range'_succ]
  | succ k ih =>
    intro s x
    rw [List.range'_succ, List.foldl_cons, ih]
    omega

theorem pairwise_lt_range_one (s n : Nat) :
    (List.range' s n).Pairwise (· < ·) := by
  induction n generalizing s with
  | zero => simp
  | succ k ih =>
    rw [List.range'_succ]
    refine List.Pairwise.cons ?_ (ih (s + 1))
    intro m hm
    have := (List.mem_range'_1.mp hm).1
    omega

theorem sorted_le_range_one (s n : Nat) :
    List.Sorted (· ≤ ·) (List.range' s n) :=
  (pairwise_lt_range_one s n).imp (fun h => Nat.le_of_lt h)

theorem scenario_fetch_latest (o : OutPoint) (mid n : Nat) :
    (fetchChannelMonitor (scenarioStore o mid n) o).map ChannelMonitor.latestUpdateId =
      some n := by
  rw [scenarioStore_eq]
  have hfind : (([(o, (⟨mid, o, 0⟩ : ChannelMonitor))]).find?
      (fun e => decide (e.1 = o))) = some (o, ⟨mid, o, 0⟩) := by
    simp [List.find?]
  have hfilter : ((List.range' 1 n).map (fun i => (o, i))).filter
      (fun r => decide (r.1 = o ∧ 0 < r.2)) = (List.range' 1 n).map (fun i => (o, i)) := by
    rw [List.filter_eq_self]
    intro r hr
    simp only [List.mem_map] at hr
    obtain ⟨i, hi, rfl⟩ := hr
    have := (List.mem_range'_1.mp hi).1
    simp
    omega
  have hpend : pendingUpdateIds
      ⟨[(o, ⟨mid, o, 0⟩)], (List.range' 1 n).map (fun i => (o, i))⟩ o 0 =
        List.range' 1 n := by
    rw [pendingUpdateIds]
    simp only [hfilter, List.map_map]
    have : ((List.range' 1 n).map (Prod.snd ∘ fun i => (o, i))) = List.range' 1 n := by
      simp [Function.comp]
    rw [this]
    exact (sorted_le_range_one 1 n).insertionSort_eq
  rw [fetchChannelMonitor, hfind]
  simp only [Option.map_some']
  rw [hpend, foldl_applyUpdate_latest]
  cases n with
  | zero => rfl
  | succ k =>
    rw [foldl_keep_last_range]
    simp [Nat.add_comm]

theorem scenario_ids_strictly_increasing (o : OutPoint) (mid n : Nat) :
    (persistedUpdateIds (scenarioStore o mid n) o).Pairwise (· < ·) := by
  rw [scenarioStore_eq, persistedUpdateIds]
  have hsnap : (([(o, (⟨mid, o, 0⟩ : ChannelMonitor))]).filter
      (fun e => decide (e.1 = o))) = [(o, ⟨mid, o, 0⟩)] := by
    simp
  have hfilter : ((List.range' 1 n).map (fun i => (o, i))).filter
      (fun r => decide (r.1 = o)) = (List.range' 1 n).map (fun i => (o, i)) := by
    rw [List.filter_eq_self]
    intro r hr
    simp only [List.mem_map] at hr
    obtain ⟨i, _, rfl⟩ := hr
    simp
  rw [hsnap, hfilter]
  simp only [List.map_map, List.map_cons, List.map_nil]
  have hm : ((List.range' 1 n).map (Prod.snd ∘ fun i => (o, i))) = List.range' 1 n := by
    simp [Function.comp]
  rw [hm]
  have h0 : ∀ m ∈ List.range' 1 n, (0 : Nat) < m := by
    intro m hm2
    have := (List.mem_range'_1.mp hm2).1
    omega
  simpa using List.Pairwise.cons h0 (pairwise_lt_range_one 1 n)

/-- C1: after channel activities generating monitor updates with ids 0..n,
fetch_channel_monitors rehydrates a monitor whose get_latest_update_id is n;
in the two-node force-close scenario (ids 0..11 on each side) both stores
return a monitor with update id 11; and per outpoint the persisted update_id
sequence is strictly increasing. -/
theorem monitor_update_id_monotonicity :
    (∀ (o : OutPoint) (mid n : Nat),
      ((fetchChannelMonitor (scenarioStore o mid n) o).map ChannelMonitor.latestUpdateId =
          some n) ∧
      (persistedUpdateIds (scenarioStore o mid n) o).Pairwise (· < ·)) ∧
    ((fetchChannelMonitor (scenarioStore (42, 0) 0 11) (42, 0)).map
        ChannelMonitor.latestUpdateId = some 11) ∧
    ((fetchChannelMonitor (scenarioStore (42, 0) 1 11) (42, 0)).map
        ChannelMonitor.latestUpdateId = some 11) :=
  ⟨fun o mid n => ⟨scenario_fetch_latest o mid n, scenario_ids_strictly_increasing o mid n⟩,
    scenario_fetch_latest (42, 0) 0 11, scenario_fetch_latest (42, 0) 1 11⟩

/-- Scopes of the two capability tokens minted at first startup. -/
inductive Scope where
  | readonly
  | admin
deriving DecidableEq, Repr

/-- A macaroon as presented by a client: minted from the root secret with a
caveat naming its role, carrying a signature that does not chain from the
root secret, or absent from the request. -/
inductive Macaroon where
  | minted (role : Scope)
  | badSignature
  | missing
deriving DecidableEq, Repr

/-- Modelled from the spec: MacaroonAuth admin verification
(macaroon_auth.rs is not under src).  A token is accepted iff its signature
chains from the configured root secret and its caveats satisfy the admin
role. -/
def verifyAdminMacaroon : Macaroon → Bool
  | Macaroon.minted Scope.admin => true
  | _ => false

/-- Modelled from the spec: MacaroonAuth readonly verification; read
operations accept either role. -/
def verifyReadonlyMacaroon : Macaroon → Bool
  | Macaroon.minted _ => true
  | _ => false

/-- The structured JSON error body, api::Error with fields status and
detail. -/
structure ErrorBody where
  status : String
  detail : String
deriving DecidableEq, Repr

/-- An HTTP response: status code plus the structured error body when the
response is an error. -/
structure ApiResponse where
  code : Nat
  errorBody : Option ErrorBody
deriving DecidableEq, Repr

/-- The ApiError enumeration of api/mod.rs. -/
inductive ApiError where
  | unauthorized
  | notFound (s : String)
  | badRequest (detail : String)
  | internalServerError (detail : String)
deriving DecidableEq, Repr

/-- Rendering of the status codes used by ApiError, as
StatusCode::to_string does. -/
def statusLine : Nat → String
  | 400 => "400 Bad Request"
  | 401 => "401 Unauthorized"
  | 404 => "404 Not Found"
  | 500 => "500 Internal Server Error"
  | _ => ""

/-- build_api_error from api/mod.rs: the response is the status code with a
body holding the code rendered as a string and the detail. -/
def buildApiError (code : Nat) (detail : String) : ApiResponse :=
  ⟨code, some ⟨statusLine code, detail⟩⟩

/-- IntoResponse for ApiError from api/mod.rs. -/
def ApiError.intoResponse : ApiError → ApiResponse
  | ApiError.unauthorized => buildApiError 401 "Failed to verify macaroon"
  | ApiError.notFound s => buildApiError 404 s
  | ApiError.badRequest d => buildApiError 400 d
  | ApiError.internalServerError d => buildApiError 500 d

/-- The REST API operations routed in api/mod.rs (everything except the 404
fallback). -/
inductive Route where
  | root
  | getInfo
  | getBalance
  | listChannels
  | openChannel
  | setChannelFee
  | closeChannel
  | newAddr
  | withdraw
  | listPeers
  | connectPeer
  | disconnectPeer
  | listNetworkNode
  | listNetworkNodes
  | listNetworkChannel
  | listNetworkChannels
  | websocket
deriving DecidableEq, Repr

/-- Modelled from the spec: the auth scope of each route per the reference
route table (the handler files other than the root handler are not under
src). -/
def routeScope : Route → Scope
  | Route.openChannel => Scope.admin
  | Route.setChannelFee => Scope.admin
  | Route.closeChannel => Scope.admin
  | Route.newAddr => Scope.admin
  | Route.withdraw => Scope.admin
  | Route.connectPeer => Scope.admin
  | Route.disconnectPeer => Scope.admin
  | Route.websocket => Scope.admin
  | _ => Scope.readonly

/-- Modelled from the spec: every route handler first verifies the supplied
macaroon against its scope, answering ApiError::Unauthorized when
verification fails, and only then processes the request; the outcome of a
verified request is abstracted by the success parameter. -/
def handleRequest (success : Route → ApiResponse) (r : Route) (m : Macaroon) : ApiResponse :=
  if routeScope r = Scope.admin then
    if verifyAdminMacaroon m then success r
    else ApiError.intoResponse ApiError.unauthorized
  else
    if verifyReadonlyMacaroon m then success r
    else ApiError.intoResponse ApiError.unauthorized

theorem unauthorized_response :
    ApiError.intoResponse ApiError.unauthorized =
      ⟨401, some ⟨"401 Unauthorized", "Failed to verify macaroon"⟩⟩ := rfl

/-- The fallback handler for unknown paths (handler_404 in api/mod.rs)
answers 404 without consulting the macaroon. -/
def handler404 (_m : Macaroon) : ApiResponse :=
  ApiError.intoResponse (ApiError.notFound "No such method")

/-- C4: any route other than the 404 fallback answers a missing or invalid
macaroon with 401 and a status-plus-detail body; an admin-scoped route
answers a readonly macaroon with the same 401; the fallback answers 404
regardless of the macaroon. -/
theorem api_auth_unauthorized (success : Route → ApiResponse) :
    (∀ (r : Route) (m : Macaroon), (∀ role, m ≠ Macaroon.minted role) →
      handleRequest success r m =
        ⟨401, some ⟨"401 Unauthorized", "Failed to verify macaroon"⟩⟩) ∧
    (∀ r : Route, routeScope r = Scope.admin →
      handleRequest success r (Macaroon.minted Scope.readonly) =
        ⟨401, some ⟨"401 Unauthorized", "Failed to verify macaroon"⟩⟩) ∧
    (∀ m : Macaroon, handler404 m = ⟨404, some ⟨"404 Not Found", "No such method"⟩⟩) := by
  refine ⟨?_, ?_, ?_⟩
  · intro r m hm
    have hA : verifyAdminMacaroon m = false := by
      cases m with
      | minted role => exact absurd rfl (hm role)
      | badSignature => rfl
      | missing => rfl
    have hR : verifyReadonlyMacaroon m = false := by
      cases m with
      | minted role => exact absurd rfl (hm role)
      | badSignature => rfl
      | missing => rfl
    rw [handleRequest]
    by_cases hscope : routeScope r = Scope.admin
    · simp [hscope, hA, unauthorized_response]
    · simp [hscope, hR, unauthorized_response]
  · intro r hscope
    rw [handleRequest]
    have hv : verifyAdminMacaroon (Macaroon.minted Scope.readonly) = false := rfl
    simp [hscope, hv, unauthorized_response]
  · intro m
    rfl

/-- Witness for the auth theorem at concrete inputs: the withdraw route with
a missing macaroon and with a readonly macaroon. -/
theorem api_auth_unauthorized_witness :
    routeScope Route.withdraw = Scope.admin ∧
    handleRequest (fun _ => ⟨200, none⟩) Route.withdraw Macaroon.missing =
      ⟨401, some ⟨"401 Unauthorized", "Failed to verify macaroon"⟩⟩ ∧
    handleRequest (fun _ => ⟨200, none⟩) Route.withdraw (Macaroon.minted Scope.readonly) =
      ⟨401, some ⟨"401 Unauthorized", "Failed to verify macaroon"⟩⟩ :=
  ⟨rfl,
    (api_auth_unauthorized (fun _ => ⟨200, none⟩)).1 Route.withdraw Macaroon.missing
      (by intro role h; cases h),
    (api_auth_unauthorized (fun _ => ⟨200, none⟩)).2.1 Route.withdraw rfl⟩

/-- The Bitcoin network options recognised in the configuration. -/
inductive Network where
  | bitcoin
  | testnet
  | signet
  | regtest
deriving DecidableEq, Repr

/-- The observations the get_info handler makes on the lightning
interface. -/
structure LightningView where
  identity_pubkey : PublicKey
  aliasName : String
  num_pending_channels : Nat
  num_active_channels : Nat
  num_inactive_channels : Nat
  num_peers : Nat
  block_height : Nat
  network : Network
  version : String
deriving DecidableEq, Repr

/-- The GetInfo response of api/src/get_info.rs. -/
structure GetInfo where
  identity_pubkey : PublicKey
  aliasName : String
  num_pending_channels : Nat
  num_active_channels : Nat
  num_inactive_channels : Nat
  num_peers : Nat
  block_height : Nat
  synced_to_chain : Bool
  testnet : Bool
  chains : List (String × Network)
  version : String
deriving DecidableEq, Repr

/-- The get_info handler from api/src/get_info.rs: verify the macaroon
(401 on failure), then assemble the GetInfo response from the lightning
interface. -/
def get_info (macaroonOk : Bool) (li : LightningView) : Except Nat GetInfo :=
  if !macaroonOk then Except.error 401
  else Except.ok
    { identity_pubkey := li.identity_pubkey
      aliasName := li.aliasName
      num_pending_channels := li.num_pending_channels
      num_active_channels := li.num_active_channels
      num_inactive_channels := li.num_inactive_channels
      num_peers := li.num_peers
      block_height := li.block_height
      synced_to_chain := true
      testnet := decide (li.network ≠ Network.bitcoin)
      chains := [("bitcoin", li.network)]
      version := li.version }

/-- A lightning interface reporting five connected peers on mainnet, as the
integration test mock does. -/
def mockLightning : LightningView :=
  { identity_pubkey := 0
    aliasName := "test"
    num_pending_channels := 0
    num_active_channels := 0
    num_inactive_channels := 0
    num_peers := 5
    block_height := 50000
    network := Network.bitcoin
    version := "v0.1" }

/-- C9: an authenticated getinfo response reports num_peers equal to the
connected-peer count of the node and testnet true iff the configured
network is not bitcoin; on the mock reporting five peers on mainnet the
response carries num_peers five and testnet false. -/
theorem get_info_fields :
    (∀ li : LightningView,
      (get_info true li).map GetInfo.num_peers = Except.ok li.num_peers ∧
      (get_info true li).map GetInfo.testnet =
        Except.ok (decide (li.network ≠ Network.bitcoin))) ∧
    (get_info true mockLightning).map GetInfo.num_peers = Except.ok 5 ∧
    (get_info true mockLightning).map GetInfo.testnet = Except.ok false :=
  ⟨fun _ => ⟨rfl, rfl⟩, rfl, rfl⟩

/-- One observation of the polling loop in PeerManager::connect_peer: is
the peer connected yet, and has the connection task finished. -/
structure PollObs where
  connected : Bool
  finished : Bool
deriving DecidableEq, Repr

/-- Results of a connect_peer call visible to the caller. -/
inductive ConnectOutcome where
  | success
  | peerDisconnected
  | addrError
  | tcpError
  | persistError
deriving DecidableEq, Repr

/-- Side effects of one connect_peer call: did it open an outbound TCP
connection (handing the socket to the protocol-level peer manager), did it
write the peer record. -/
structure ConnectEffects where
  tcpOpened : Bool
  peerPersisted : Bool
deriving DecidableEq, Repr

/-- The polling loop of PeerManager::connect_peer over successive
observations taken one second apart: success once the peer shows up
connected, PeerDisconnected once the connection task is finished; none
models a loop that is still polling when the observation trace ends. -/
def connectPeerPoll : List PollObs → Option ConnectOutcome
  | [] => none
  | o :: rest =>
    if o.connected then some ConnectOutcome.success
    else if o.finished then some ConnectOutcome.peerDisconnected
    else connectPeerPoll rest

/-- PeerManager::connect_peer together with the free connect_peer helper:
return success at once when the peer is already connected; otherwise
resolve the socket address, open the outbound TCP connection handing the
socket to the protocol-level peer manager, persist the peer record, spawn
the connection task, then poll. -/
def connect_peer (alreadyConnected addrOk tcpOk persistOk : Bool)
    (obs : List PollObs) : ConnectEffects × Option ConnectOutcome :=
  if alreadyConnected then (⟨false, false⟩, some ConnectOutcome.success)
  else if !addrOk then (⟨false, false⟩, some ConnectOutcome.addrError)
  else if !tcpOk then (⟨false, false⟩, some ConnectOutcome.tcpError)
  else if !persistOk then (⟨true, false⟩, some ConnectOutcome.persistError)
  else (⟨true, true⟩, connectPeerPoll obs)

theorem connectPeerPoll_append_idle (pre : List PollObs)
    (hpre : ∀ q ∈ pre, q.connected = false ∧ q.finished = false) (rest : List PollObs) :
    connectPeerPoll (pre ++ rest) = connectPeerPoll rest := by
  induction pre with
  | nil => rfl
  | cons p pre2 ih =>
    have hp := hpre p (by simp)
    rw [List.cons_append, connectPeerPoll]
    simp only [hp.1, hp.2, if_false]
    exact ih (fun q hq => hpre q (by simp [hq]))

theorem connectPeerPoll_disconnected_iff (obs : List PollObs) :
    connectPeerPoll obs = some ConnectOutcome.peerDisconnected ↔
      ∃ pre o rest, obs = pre ++ o :: rest ∧
        (∀ q ∈ pre, q.connected = false ∧ q.finished = false) ∧
        o.connected = false ∧ o.finished = true := by
  induction obs with
  | nil =>
    constructor
    · intro h
      exact absurd h (by simp [connectPeerPoll])
    · rintro ⟨pre, o, rest, hsplit, -, -, -⟩
      exact absurd hsplit (by simp)
  | cons a t ih =>
    constructor
    · intro h
      rw [connectPeerPoll] at h
      by_cases hc : a.connected = true
      · rw [if_pos hc] at h
        exact absurd h (by simp)
      · rw [if_neg hc] at h
        simp only [Bool.not_eq_true] at hc
        by_cases hf : a.finished = true
        · exact ⟨[], a, t, rfl, by simp, hc, hf⟩
        · rw [if_neg hf] at h
          obtain ⟨pre, o, rest, hsplit, hpre, hoc, hof⟩ := ih.mp h
          simp only [Bool.not_eq_true] at hf
          refine ⟨a :: pre, o, rest, by rw [hsplit]; rfl, ?_, hoc, hof⟩
          intro q hq
          rcases List.mem_cons.mp hq with rfl | hq2
          · exact ⟨hc, hf⟩
          · exact hpre q hq2
    · rintro ⟨pre, o, rest, hsplit, hpre, hoc, hof⟩
      rw [hsplit, connectPeerPoll_append_idle pre hpre, connectPeerPoll]
      simp [hoc, hof]

/-- C5: connect_peer returns success at once, with no TCP connect and no
peer-record write, when the peer is already connected; otherwise it opens
TCP, hands the socket over, persists the peer record and polls; the poll
answers PeerDisconnected exactly when the connection task finishes before
the peer ever shows up connected. -/
theorem connect_peer_behaviour :
    (∀ (a t p : Bool) (obs : List PollObs),
      connect_peer true a t p obs = (⟨false, false⟩, some ConnectOutcome.success)) ∧
    (∀ obs : List PollObs,
      connect_peer false true true true obs = (⟨true, true⟩, connectPeerPoll obs)) ∧
    (∀ obs : List PollObs,
      connectPeerPoll obs = some ConnectOutcome.peerDisconnected ↔
        ∃ pre o rest, obs = pre ++ o :: rest ∧
          (∀ q ∈ pre, q.connected = false ∧ q.finished = false) ∧
          o.connected = false ∧ o.finished = true) :=
  ⟨fun _ _ _ _ => rfl, fun _ => rfl, connectPeerPoll_disconnected_iff⟩

/-- Witness for the connect_peer theorem at a concrete trace: one idle
poll, then the connection task finishes, yielding PeerDisconnected. -/
theorem connect_peer_behaviour_witness :
    connect_peer false true true true [⟨false, false⟩, ⟨false, true⟩] =
      (⟨true, true⟩, some ConnectOutcome.peerDisconnected) := by
  rw [connect_peer_behaviour.2.1 [⟨false, false⟩, ⟨false, true⟩]]
  rfl

/-- The peer-manager operations, with outbound-connect attempts split by
result: the free connect_peer helper (reached from both
PeerManager::connect_peer and the keep_channel_peers_connected reconnect
loop) persists the peer record exactly when the outbound connection was
established; an early return for an already connected peer and a failed
resolve or connect write nothing. -/
inductive PeerOp where
  | connectSuccess (k : PublicKey)
  | connectAlready (k : PublicKey)
  | connectFailed (k : PublicKey)
  | disconnectByNodeId (k : PublicKey)
  | listen
  | keepConnectedTick
  | broadcastAnnouncement
  | getConnectedPeers
  | disconnectAllPeers
deriving DecidableEq, Repr

/-- Effect of one peer-manager operation on the set of persisted peer rows:
a successful connect runs persist_peer (an upsert, keeping at most one row
per key), disconnect_by_node_id runs delete_peer, and no other operation
touches the table. -/
def peerRowStep (s : Finset PublicKey) : PeerOp → Finset PublicKey
  | PeerOp.connectSuccess k => insert k s
  | PeerOp.disconnectByNodeId k => s.erase k
  | _ => s

/-- The peer rows left after a sequence of operations from an empty
table. -/
def peerRows (ops : List PeerOp) : Finset PublicKey :=
  ops.foldl peerRowStep ∅

/-- PeerManager::disconnect_by_node_id: call the protocol-level disconnect
for the node id, then delete the persisted peer record; the first component
records the protocol-level disconnect calls made. -/
def disconnect_by_node_id (rows : Finset PublicKey) (k : PublicKey) :
    List PublicKey × Finset PublicKey :=
  ([k], rows.erase k)

theorem peerRowStep_mem_foldl (ops : List PeerOp) :
    ∀ (s : Finset PublicKey) (k : PublicKey),
      k ∈ ops.foldl peerRowStep s ↔
        ((∃ pre post, ops = pre ++ PeerOp.connectSuccess k :: post ∧
            PeerOp.disconnectByNodeId k ∉ post) ∨
          (k ∈ s ∧ PeerOp.disconnectByNodeId k ∉ ops)) := by
  induction ops with
  | nil =>
    intro s k
    simp
  | cons op t ih =>
    intro s k
    rw [List.foldl_cons, ih]
    constructor
    · rintro (⟨pre, post, rfl, hpost⟩ | ⟨hmem, hnot⟩)
      · exact Or.inl ⟨op :: pre, post, rfl, hpost⟩
      · cases op with
        | connectSuccess k2 =>
          rcases Finset.mem_insert.mp hmem with rfl | hks
          · exact Or.inl ⟨[], t, rfl, hnot⟩
          · refine Or.inr ⟨hks, ?_⟩
            intro hd
            rcases List.mem_cons.mp hd with hd1 | hd2
            · cases hd1
            · exact hnot hd2
        | disconnectByNodeId k2 =>
          obtain ⟨hne, hks⟩ := Finset.mem_erase.mp hmem
          refine Or.inr ⟨hks, ?_⟩
          intro hd
          rcases List.mem_cons.mp hd with hd1 | hd2
          · exact hne (by injection hd1)
          · exact hnot hd2
        | connectAlready k2 =>
          exact Or.inr ⟨hmem, fun hd => by
            rcases List.mem_cons.mp hd with hd1 | hd2
            · cases hd1
            · exact hnot hd2⟩
        | connectFailed k2 =>
          exact Or.inr ⟨hmem, fun hd => by
            rcases List.mem_cons.mp hd with hd1 | hd2
            · cases hd1
            · exact hnot hd2⟩
        | listen =>
          exact Or.inr ⟨hmem, fun hd => by
            rcases List.mem_cons.mp hd with hd1 | hd2
            · cases hd1
            · exact hnot hd2⟩
        | keepConnectedTick =>
          exact Or.inr ⟨hmem, fun hd => by
            rcases List.mem_cons.mp hd with hd1 | hd2
            · cases hd1
            · exact hnot hd2⟩
        | broadcastAnnouncement =>
          exact Or.inr ⟨hmem, fun hd => by
            rcases List.mem_cons.mp hd with hd1 | hd2
            · cases hd1
            · exact hnot hd2⟩
        | getConnectedPeers =>
          exact Or.inr ⟨hmem, fun hd => by
            rcases List.mem_cons.mp hd with hd1 | hd2
            · cases hd1
            · exact hnot hd2⟩
        | disconnectAllPeers =>
          exact Or.inr ⟨hmem, fun hd => by
            rcases List.mem_cons.mp hd with hd1 | hd2
            · cases hd1
            · exact hnot hd2⟩
    · rintro (⟨pre, post, hsplit, hpost⟩ | ⟨hks, hnot⟩)
      · cases pre with
        | nil =>
          obtain ⟨rfl, rfl⟩ : op = PeerOp.connectSuccess k ∧ t = post := by
            simpa using hsplit
          exact Or.inr ⟨Finset.mem_insert_self k s, hpost⟩
        | cons p pre2 =>
          obtain ⟨rfl, rfl⟩ : op = p ∧ t = pre2 ++ PeerOp.connectSuccess k :: post := by
            simpa using hsplit
          exact Or.inl ⟨pre2, post, rfl, hpost⟩
      · have hopne : op ≠ PeerOp.disconnectByNodeId k :=
          fun h => hnot (h ▸ List.mem_cons_self _ _)
        have hnt : PeerOp.disconnectByNodeId k ∉ t :=
          fun h => hnot (List.mem_cons_of_mem _ h)
        refine Or.inr ⟨?_, hnt⟩
        cases op with
        | connectSuccess k2 => exact Finset.mem_insert_of_mem hks
        | disconnectByNodeId k2 =>
          refine Finset.mem_erase.mpr ⟨?_, hks⟩
          intro hkk
          exact hopne (by rw [hkk])
        | connectAlready k2 => exact hks
        | connectFailed k2 => exact hks
        | listen => exact hks
        | keepConnectedTick => exact hks
        | broadcastAnnouncement => exact hks
        | getConnectedPeers => exact hks
        | disconnectAllPeers => exact hks

/-- C6: disconnect_by_node_id both issues the protocol-level disconnect and
deletes the persisted peer record; no operation other than
disconnect_by_node_id on the same key ever removes a peer row; and after
any operation sequence from an empty table a peer row for k exists iff some
successful connect of k (from connect_peer or the reconnect loop) is not
followed by a disconnect of k. -/
theorem peer_row_invariant :
    (∀ (rows : Finset PublicKey) (k : PublicKey),
      (disconnect_by_node_id rows k).1 = [k] ∧
        k ∉ (disconnect_by_node_id rows k).2) ∧
    (∀ (s : Finset PublicKey) (op : PeerOp) (k : PublicKey),
      k ∈ s → k ∉ peerRowStep s op → op = PeerOp.disconnectByNodeId k) ∧
    (∀ (ops : List PeerOp) (k : PublicKey),
      k ∈ peerRows ops ↔
        ∃ pre post, ops = pre ++ PeerOp.connectSuccess k :: post ∧
          PeerOp.disconnectByNodeId k ∉ post) := by
  refine ⟨?_, ?_, ?_⟩
  · intro rows k
    exact ⟨rfl, Finset.not_mem_erase k rows⟩
  · intro s op k hk hout
    cases op with
    | connectSuccess k2 => exact absurd (Finset.mem_insert_of_mem hk) hout
    | disconnectByNodeId k2 =>
      by_cases hkk : k = k2
      · rw [hkk]
      · exact absurd (Finset.mem_erase.mpr ⟨hkk, hk⟩) hout
    | connectAlready k2 => exact absurd hk hout
    | connectFailed k2 => exact absurd hk hout
    | listen => exact absurd hk hout
    | keepConnectedTick => exact absurd hk hout
    | broadcastAnnouncement => exact absurd hk hout
    | getConnectedPeers => exact absurd hk hout
    | disconnectAllPeers => exact absurd hk hout
  · intro ops k
    rw [peerRows, peerRowStep_mem_foldl]
    simp

/-- Witness for the peer-row theorem at concrete inputs: key three is in
the table, removing it happens through disconnect, and a concrete history
of connect, disconnect, reconnect leaves the row present. -/
theorem peer_row_invariant_witness :
    ((3 : PublicKey) ∈ ({3} : Finset PublicKey) ∧
      (3 : PublicKey) ∉ peerRowStep {3} (PeerOp.disconnectByNodeId 3) ∧
      PeerOp.disconnectByNodeId (3 : PublicKey) = PeerOp.disconnectByNodeId 3) ∧
    (3 : PublicKey) ∈ peerRows
      [PeerOp.connectSuccess 3, PeerOp.disconnectByNodeId 3, PeerOp.connectSuccess 3] := by
  constructor
  · refine ⟨by decide, by decide, ?_⟩
    exact peer_row_invariant.2.1 {3} (PeerOp.disconnectByNodeId 3) 3 (by decide) (by decide)
  · exact (peer_row_invariant.2.2
      [PeerOp.connectSuccess 3, PeerOp.disconnectByNodeId 3, PeerOp.connectSuccess 3] 3).mpr
      ⟨[PeerOp.connectSuccess 3, PeerOp.disconnectByNodeId 3], [], rfl, by decide⟩

/-- Configuration options consumed by the two peer-manager variants: the
node name as bytes, the public addresses of the kld variant and the listen
addresses of the older variant. -/
structure Settings where
  node_name : List Nat
  public_addresses : List String
  listen_addresses : List String
deriving DecidableEq, Repr

/-- The alias buffer built at the top of
regularly_broadcast_node_announcement: 32 zero bytes with the node name
copied over the front (PeerManager::new refuses names longer than 32 bytes,
so the copy never truncates or panics). -/
def aliasBytes (name : List Nat) : List Nat :=
  name ++ List.replicate (32 - name.length) 0

/-- Arguments of one broadcast_node_announcement call: the rgb color
triple, the 32-byte alias buffer and the announced addresses. -/
structure NodeAnnouncement where
  rgb : Nat × Nat × Nat
  aliasBuf : List Nat
  addresses : List String
deriving DecidableEq, Repr

/-- What a broadcast loop sets up: whether a task was spawned at all, and
the announcement each 60 s tick passes to broadcast_node_announcement. -/
structure BroadcastLoop where
  spawned : Bool
  announcement : Option NodeAnnouncement
deriving DecidableEq, Repr

/-- PeerManager::new of the kld variant: refuse node names over 32 bytes,
keep the parsed public addresses in the struct. -/
def peerManagerNew (s : Settings) : Except String (Settings × List String) :=
  if s.node_name.length > 32 then
    Except.error "Node Alias can not be longer than 32 bytes"
  else Except.ok (s, s.public_addresses)

/-- The kld variant of regularly_broadcast_node_announcement
(kld/src/ldk/peer_manager.rs): spawn the 60 s loop unconditionally, each
tick broadcasting the zero color triple, the padded alias and the stored
addresses. -/
def kldRegularlyBroadcast (s : Settings) (addresses : List String) : BroadcastLoop :=
  { spawned := true
    announcement := some ⟨(0, 0, 0), aliasBytes s.node_name, addresses⟩ }

/-- The older peer-manager variant (src/peer_manager.rs): spawn the loop
only when the configured listen addresses are nonempty, broadcasting
those. -/
def oldRegularlyBroadcast (s : Settings) : BroadcastLoop :=
  if s.listen_addresses.isEmpty then ⟨false, none⟩
  else ⟨true, some ⟨(0, 0, 0), aliasBytes s.node_name, s.listen_addresses⟩⟩

/-- A configuration with no public and no listen addresses. -/
def noPublicAddresses : Settings :=
  { node_name := [107, 108, 100], public_addresses := [], listen_addresses := [] }

/-- C8 counterexample: with no public addresses configured, the kld
peer-manager still spawns the broadcast loop (each tick announcing an empty
address list), refuting that the loop is skipped entirely. -/
theorem broadcast_loop_not_skipped :
    noPublicAddresses.public_addresses = [] ∧
    (kldRegularlyBroadcast noPublicAddresses noPublicAddresses.public_addresses).spawned
      = true ∧
    (kldRegularlyBroadcast noPublicAddresses
        noPublicAddresses.public_addresses).announcement =
      some ⟨(0, 0, 0), aliasBytes noPublicAddresses.node_name, []⟩ :=
  ⟨rfl, rfl, rfl⟩

/-- C8 amended: each tick of the kld broadcast loop announces the zero
color triple, the node name zero-padded to exactly 32 bytes and the
configured public addresses; the kld loop is spawned unconditionally (with
an empty address list when no public addresses are configured); only the
older peer-manager variant skips spawning, and it does so when the listen
addresses are empty. -/
theorem broadcast_announcement_contents (s : Settings)
    (h : s.node_name.length ≤ 32) :
    (kldRegularlyBroadcast s s.public_addresses).spawned = true ∧
    (kldRegularlyBroadcast s s.public_addresses).announcement =
      some ⟨(0, 0, 0), aliasBytes s.node_name, s.public_addresses⟩ ∧
    (aliasBytes s.node_name).length = 32 ∧
    (aliasBytes s.node_name).take s.node_name.length = s.node_name ∧
    ((oldRegularlyBroadcast s).spawned = true ↔ s.listen_addresses ≠ []) := by
  refine ⟨rfl, rfl, ?_, ?_, ?_⟩
  · rw [aliasBytes, List.length_append, List.length_replicate]
    omega
  · rw [aliasBytes, List.take_left]
  · rw [oldRegularlyBroadcast]
    by_cases he : s.listen_addresses.isEmpty
    · simp [he, List.isEmpty_iff.mp he]
    · simp only [he, if_false]
      simp only [List.isEmpty_iff] at he
      simp [he]

/-- Witness for the amended broadcast theorem at a concrete configuration
with a three-byte name and one public address. -/
theorem broadcast_announcement_contents_witness :
    (⟨[107, 108, 100], ["1.2.3.4:9735"], []⟩ : Settings).node_name.length ≤ 32 ∧
    (aliasBytes (⟨[107, 108, 100], ["1.2.3.4:9735"], []⟩ : Settings).node_name).length = 32 :=
  ⟨by decide,
    (broadcast_announcement_contents ⟨[107, 108, 100], ["1.2.3.4:9735"], []⟩
      (by decide)).2.2.1⟩

/-- The calls open_channel makes that matter for its state footprint: the
create_channel invocations with their arguments and the keys inserted into
the funding-transactions correlation table. -/
structure OpenChannelCalls where
  createChannel : List (PublicKey × Nat × Nat × Nat)
  fundingInserts : List Nat
deriving DecidableEq, Repr

/-- Errors surfaced by open_channel. -/
inductive OpenChannelError where
  | bitcoindError
  | notSynchronised
  | peerNotConnected
  | ldkError
  | fundingFailed
deriving DecidableEq, Repr

/-- Controller::open_channel: bail when the bitcoind client errors or
reports it is not synchronised; error when the peer is not connected; only
then draw a random user_channel_id, pass it to create_channel, insert the
funding-transactions entry under the same id and await the funding
transaction from the event handler.  The syncStatus, createResult and
fundingResult parameters stand for the bitcoind reply, the engine reply and
the awaited receiver value; ucid stands for the drawn random id. -/
def open_channel (syncStatus : Except Unit Bool) (peerConnected : Bool)
    (theirNetworkKey : PublicKey) (channelValueSatoshis pushMsat : Nat) (ucid : Nat)
    (createResult : Except Unit Nat) (fundingResult : Except Unit Nat) :
    OpenChannelCalls × Except OpenChannelError Nat :=
  match syncStatus with
  | Except.error _ => (⟨[], []⟩, Except.error OpenChannelError.bitcoindError)
  | Except.ok false => (⟨[], []⟩, Except.error OpenChannelError.notSynchronised)
  | Except.ok true =>
    if !peerConnected then (⟨[], []⟩, Except.error OpenChannelError.peerNotConnected)
    else
      match createResult with
      | Except.error _ =>
        (⟨[(theirNetworkKey, channelValueSatoshis, pushMsat, ucid)], []⟩,
          Except.error OpenChannelError.ldkError)
      | Except.ok channelId =>
        match fundingResult with
        | Except.error _ =>
          (⟨[(theirNetworkKey, channelValueSatoshis, pushMsat, ucid)], [ucid]⟩,
            Except.error OpenChannelError.fundingFailed)
        | Except.ok _tx =>
          (⟨[(theirNetworkKey, channelValueSatoshis, pushMsat, ucid)], [ucid]⟩,
            Except.ok channelId)

/-- C10: open_channel leaves the state untouched, calling neither
create_channel nor the funding-transactions table, whenever bitcoind errors
or is not synchronised or the peer is not connected; when both
preconditions hold the drawn user_channel_id is passed to create_channel
and, as soon as create_channel succeeds, the funding-transactions entry is
keyed by the same id. -/
theorem open_channel_preconditions (key v p ucid : Nat)
    (createResult fundingResult : Except Unit Nat) :
    (∀ connected : Bool,
      open_channel (Except.error ()) connected key v p ucid createResult fundingResult =
        (⟨[], []⟩, Except.error OpenChannelError.bitcoindError)) ∧
    (∀ connected : Bool,
      open_channel (Except.ok false) connected key v p ucid createResult fundingResult =
        (⟨[], []⟩, Except.error OpenChannelError.notSynchronised)) ∧
    (open_channel (Except.ok true) false key v p ucid createResult fundingResult =
      (⟨[], []⟩, Except.error OpenChannelError.peerNotConnected)) ∧
    ((open_channel (Except.ok true) true key v p ucid createResult
        fundingResult).1.createChannel = [(key, v, p, ucid)]) ∧
    ((open_channel (Except.ok true) true key v p ucid createResult
        fundingResult).1.fundingInserts = if createResult.isOk then [ucid] else []) := by
  refine ⟨fun _ => rfl, fun _ => rfl, rfl, ?_, ?_⟩
  · cases createResult with
    | error e => rfl
    | ok cid => cases fundingResult with
      | error e => rfl
      | ok tx => rfl
  · cases createResult with
    | error e => rfl
    | ok cid => cases fundingResult with
      | error e => rfl
      | ok tx => rfl

/-- State of the oneshot channel created by AsyncSenders::insert between
the responding task and the awaiting API caller. -/
inductive OneshotState (RV : Type) where
  | pending
  | sent (rv : RV)
  | senderDropped
  | receiverDropped
deriving DecidableEq, Repr

/-- The AsyncSenders table of controller.rs: a map from keys to the stored
value and the sender half of a oneshot channel.  Channels live in a side
map keyed by an id drawn from the fresh counter; the receiver handed back
by insert is the same id. -/
structure AsyncSenders (K V RV : Type) where
  senders : List (K × V × Nat)
  chans : List (Nat × OneshotState RV)
  fresh : Nat

/-- The table AsyncSenders::new starts from. -/
def AsyncSenders.empty {K V RV : Type} : AsyncSenders K V RV := ⟨[], [], 0⟩

/-- Dropping the sender half of a pending channel (a sender removed from
the table but never invoked, or replaced by a later insert). -/
def dropPendingSender {RV : Type} : OneshotState RV → OneshotState RV
  | OneshotState.pending => OneshotState.senderDropped
  | st => st

/-- Dropping the receiver half of a pending channel (the awaiting caller
went away). -/
def dropPendingReceiver {RV : Type} : OneshotState RV → OneshotState RV
  | OneshotState.pending => OneshotState.receiverDropped
  | st => st

/-- Sending on a oneshot channel, as Sender::send behaves: the value is
delivered when the receiver is still waiting; the send errors when the
receiver was dropped, which the table code answers with a warn log only. -/
def chanSend {RV : Type} (chans : List (Nat × OneshotState RV)) (id : Nat) (rv : RV) :
    List (Nat × OneshotState RV) × Bool :=
  match chans.find? (fun e => decide (e.1 = id)) with
  | some (_, OneshotState.pending) =>
    (chans.map (fun e => if e.1 = id then (e.1, OneshotState.sent rv) else e), true)
  | _ => (chans, false)

/-- AsyncSenders::insert: create a oneshot pair, store the value with the
sender under k (an insert into the hash map replaces any previous entry,
dropping its sender), return the receiver. -/
def AsyncSenders.insert {K V RV : Type} [DecidableEq K]
    (c : AsyncSenders K V RV) (k : K) (v : V) : AsyncSenders K V RV × Nat :=
  let chans :=
    match c.senders.find? (fun e => decide (e.1 = k)) with
    | some (_, _, oldId) =>
      c.chans.map (fun e => if e.1 = oldId then (e.1, dropPendingSender e.2) else e)
    | none => c.chans
  (⟨(k, v, c.fresh) :: c.senders.filter (fun e => decide (e.1 ≠ k)),
    (c.fresh, OneshotState.pending) :: chans,
    c.fresh + 1⟩, c.fresh)

/-- AsyncSenders::get: atomically remove the entry of k under the write
lock and hand back its value together with the respond closure, here the
channel id the closure would send on. -/
def AsyncSenders.get {K V RV : Type} [DecidableEq K]
    (c : AsyncSenders K V RV) (k : K) : Option (V × Nat) × AsyncSenders K V RV :=
  match c.senders.find? (fun e => decide (e.1 = k)) with
  | some (_, v, id) =>
    (some (v, id), { c with senders := c.senders.filter (fun e => decide (e.1 ≠ k)) })
  | none => (none, c)

/-- Invoking the respond closure handed out by get: send on the channel,
warn (second component true) when the receiver was dropped. -/
def AsyncSenders.invoke {K V RV : Type}
    (c : AsyncSenders K V RV) (id : Nat) (rv : RV) : AsyncSenders K V RV × Bool :=
  let p := chanSend c.chans id rv
  ({ c with chans := p.1 }, !p.2)

/-- AsyncSenders::respond: remove the entry of k and deliver rv on its
channel, warn-logging when the receiver was dropped; a missing key does
nothing. -/
def AsyncSenders.respond {K V RV : Type} [DecidableEq K]
    (c : AsyncSenders K V RV) (k : K) (rv : RV) : AsyncSenders K V RV × Bool :=
  match c.senders.find? (fun e => decide (e.1 = k)) with
  | some (_, _, id) =>
    let c2 : AsyncSenders K V RV :=
      { c with senders := c.senders.filter (fun e => decide (e.1 ≠ k)) }
    let p := chanSend c2.chans id rv
    ({ c2 with chans := p.1 }, !p.2)
  | none => (c, false)

/-- Dropping the sender half of channel id without ever sending. -/
def AsyncSenders.dropSender {K V RV : Type}
    (c : AsyncSenders K V RV) (id : Nat) : AsyncSenders K V RV :=
  { c with chans :=
      c.chans.map (fun e => if e.1 = id then (e.1, dropPendingSender e.2) else e) }

/-- Dropping the receiver half of channel id. -/
def AsyncSenders.dropReceiver {K V RV : Type}
    (c : AsyncSenders K V RV) (id : Nat) : AsyncSenders K V RV :=
  { c with chans :=
      c.chans.map (fun e => if e.1 = id then (e.1, dropPendingReceiver e.2) else e) }

/-- What the awaiting Receiver of channel id yields: the sent value once
delivered, an error once the sender was dropped without sending, and
nothing yet while the channel is pending. -/
def AsyncSenders.recv {K V RV : Type}
    (c : AsyncSenders K V RV) (id : Nat) : Option (Except Unit RV) :=
  match c.chans.find? (fun e => decide (e.1 = id)) with
  | some (_, OneshotState.sent rv) => some (Except.ok rv)
  | some (_, OneshotState.senderDropped) => some (Except.error ())
  | _ => none

/-- C7: for the async-request correlator, inserting v under k and then
responding r from another task delivers exactly r to the returned receiver
with no warn; get atomically removes the entry, so a second get finds
nothing and a respond after get changes nothing, and a second respond after
a respond changes nothing, so a value is delivered at most once per key;
while pending the receiver yields nothing; dropping the sender without
responding makes the receiver yield an error; and delivery to a dropped
receiver only raises the warn flag. -/
theorem async_request_correlation {K V RV : Type} [DecidableEq K]
    (k : K) (v : V) (r r2 : RV) :
    (((AsyncSenders.empty : AsyncSenders K V RV).insert k v).2 = 0) ∧
    ((((AsyncSenders.empty : AsyncSenders K V RV).insert k v).1.respond k r).2 = false) ∧
    ((((AsyncSenders.empty : AsyncSenders K V RV).insert k v).1.respond k r).1.recv 0 =
      some (Except.ok r)) ∧
    (((((AsyncSenders.empty : AsyncSenders K V RV).insert k v).1.respond k r).1.respond k r2) =
      ((((AsyncSenders.empty : AsyncSenders K V RV).insert k v).1.respond k r).1, false)) ∧
    ((((AsyncSenders.empty : AsyncSenders K V RV).insert k v).1.get k).1 = some (v, 0)) ∧
    (((((AsyncSenders.empty : AsyncSenders K V RV).insert k v).1.get k).2.get k).1 = none) ∧
    (((((AsyncSenders.empty : AsyncSenders K V RV).insert k v).1.get k).2.respond k r) =
      ((((AsyncSenders.empty : AsyncSenders K V RV).insert k v).1.get k).2, false)) ∧
    ((((AsyncSenders.empty : AsyncSenders K V RV).insert k v).1.recv 0) = none) ∧
    (((((AsyncSenders.empty : AsyncSenders K V RV).insert k v).1.get k).2.dropSender 0).recv 0 =
      some (Except.error ())) ∧
    (((((AsyncSenders.empty : AsyncSenders K V RV).insert k v).1.dropReceiver 0).respond k r).2 =
      true) := by
  have hc1 : ((AsyncSenders.empty : AsyncSenders K V RV).insert k v) =
      (⟨[(k, v, 0)], [(0, OneshotState.pending)], 1⟩, 0) := rfl
  have hresp : ((⟨[(k, v, 0)], [(0, OneshotState.pending)], 1⟩ :
      AsyncSenders K V RV).respond k r) =
      (⟨[], [(0, OneshotState.sent r)], 1⟩, false) := by
    simp [AsyncSenders.respond, chanSend, List.find?]
  have hget : ((⟨[(k, v, 0)], [(0, OneshotState.pending)], 1⟩ :
      AsyncSenders K V RV).get k) =
      (some (v, 0), ⟨[], [(0, OneshotState.pending)], 1⟩) := by
    simp [AsyncSenders.get, List.find?]
  have hdropR : (((⟨[(k, v, 0)], [(0, OneshotState.pending)], 1⟩ :
      AsyncSenders K V RV)).dropReceiver 0) =
      ⟨[(k, v, 0)], [(0, OneshotState.receiverDropped)], 1⟩ := rfl
  have hrespR : ((⟨[(k, v, 0)], [(0, OneshotState.receiverDropped)], 1⟩ :
      AsyncSenders K V RV).respond k r) =
      (⟨[], [(0, OneshotState.receiverDropped)], 1⟩, true) := by
    simp [AsyncSenders.respond, chanSend, List.find?]
  refine ⟨rfl, ?_, ?_, ?_, ?_, ?_, ?_, rfl, ?_, ?_⟩
  · simp only [hc1]
    rw [hresp]
  · simp only [hc1]
    rw [hresp]
    rfl
  · simp only [hc1]
    rw [hresp]
    rfl
  · simp only [hc1]
    rw [hget]
  · simp only [hc1]
    rw [hget]
    rfl
  · simp only [hc1]
    rw [hget]
    rfl
  · simp only [hc1]
    rw [hget]
    rfl
  · simp only [hc1, hdropR]
    rw [hrespR]

end Knd
